import Mathlib

/-!
# Verification of the nova-scheduler stream-scheduling bot (`src/main.py`)

A shallow embedding of the bot's temporal-correctness engine:

* `parseDT` models `datetime.strptime(s, "%Y-%m-%d %H:%M")` (CPython's
  `_strptime` regex semantics: `%Y` is exactly four digits; `%m`, `%d`,
  `%H`, `%M` are one or two digits within their ranges; a literal space in
  the format matches one or more whitespace characters; the resulting
  calendar date must be valid), returning a naive local date-time.
* `PyTz` / `TZDB` model `pytz.timezone` lookup and `tz.localize`: a zone is
  an arbitrary localization function from naive date-times to absolute
  instants (integers, minutes since the epoch); the database maps zone
  names to zones, `none` meaning `UnknownTimeZoneError`.
* `BotData` mirrors the persisted `schedule.json` shape.
* `clean_old_streams`, `upcomingOf`, `scheduleCommand`,
  `dailyScheduleAnnouncer`, `removeStreamAt`, `set_user_timezone` and
  `addStream` embed the corresponding operations of `src/main.py`, with
  I/O effects (message sends, `save_data`) made explicit in the results.
-/

namespace Nova

/-- A naive local date-time, the result of a successful `strptime`. -/
structure NaiveDT where
  year : Nat
  month : Nat
  day : Nat
  hour : Nat
  minute : Nat
deriving DecidableEq, Repr

/-- Numeric value of an ASCII digit, as in the `\d` character class used by
CPython's `_strptime` patterns (restricted to ASCII digits). -/
def digitVal (c : Char) : Option Nat :=
  if '0' ≤ c ∧ c ≤ '9' then some (c.toNat - 48) else none

/-- Greedily consume one or two digits (`%m`, `%d`, `%H`, `%M` each match one
or two digits; the following character in the format is a non-digit literal,
so greedy matching is deterministic). -/
def take2 : List Char → Option (Nat × List Char)
  | [] => none
  | c1 :: rest =>
    match digitVal c1 with
    | none => none
    | some v1 =>
      match rest with
      | c2 :: rest2 =>
        match digitVal c2 with
        | some v2 => some (v1 * 10 + v2, rest2)
        | none => some (v1, rest)
      | [] => some (v1, [])

/-- Consume exactly four digits (`%Y` matches `\d\d\d\d`). -/
def take4 : List Char → Option (Nat × List Char)
  | c1 :: c2 :: c3 :: c4 :: rest => do
    let v1 ← digitVal c1
    let v2 ← digitVal c2
    let v3 ← digitVal c3
    let v4 ← digitVal c4
    some (((v1 * 10 + v2) * 10 + v3) * 10 + v4, rest)
  | _ => none

/-- Consume an expected literal character. -/
def expectChar (c : Char) : List Char → Option (List Char)
  | [] => none
  | c1 :: rest => if c1 = c then some rest else none

/-- Consume one or more whitespace characters (a literal space in a
`strptime` format is compiled to `\s+`). -/
def skipWs : List Char → Option (List Char)
  | [] => none
  | c1 :: rest =>
    if c1.isWhitespace then some (rest.dropWhile Char.isWhitespace) else none

/-- Gregorian leap-year test, as used by `datetime`'s calendar validation. -/
def isLeap (y : Nat) : Bool :=
  y % 4 = 0 ∧ (y % 100 ≠ 0 ∨ y % 400 = 0)

/-- Number of days in a month, as used by `datetime`'s calendar validation. -/
def daysInMonth (y m : Nat) : Nat :=
  if m = 2 then (if isLeap y then 29 else 28)
  else if m = 4 ∨ m = 6 ∨ m = 9 ∨ m = 11 then 30
  else 31

/-- Model of `datetime.strptime(s, "%Y-%m-%d %H:%M")`: `none` corresponds to
a raised `ValueError` (pattern mismatch, leftover characters, or an invalid
calendar date rejected by the `datetime` constructor). -/
def parseDT (s : String) : Option NaiveDT := do
  let (y, r1) ← take4 s.toList
  let r2 ← expectChar '-' r1
  let (m, r3) ← take2 r2
  let r4 ← expectChar '-' r3
  let (d, r5) ← take2 r4
  let r6 ← skipWs r5
  let (h, r7) ← take2 r6
  let r8 ← expectChar ':' r7
  let (mi, r9) ← take2 r8
  if 1 ≤ y ∧ 1 ≤ m ∧ m ≤ 12 ∧ 1 ≤ d ∧ d ≤ daysInMonth y m ∧
      h ≤ 23 ∧ mi ≤ 59 ∧ r9 = [] then
    some ⟨y, m, d, h, mi⟩
  else
    none

/-- A pytz timezone object: `localize` sends a naive local date-time to an
absolute instant (minutes since the Unix epoch). `tz.localize` with the
default `is_dst` never raises, so it is total. -/
structure PyTz where
  localize : NaiveDT → Int

/-- Model of the `pytz` zone database: `pytz.timezone name` either returns a
zone or raises `UnknownTimeZoneError` (`none`). -/
def TZDB : Type := String → Option PyTz

/-- Days since 1970-01-01 of a civil date (Howard Hinnant's `days_from_civil`
algorithm; all intermediate quantities are nonnegative for years ≥ 1). -/
def daysFromCivil (y m d : Int) : Int :=
  let y' : Int := y - (if m ≤ 2 then 1 else 0)
  let era : Int := y' / 400
  let yoe : Int := y' - era * 400
  let mp : Int := (m + 9) % 12
  let doy : Int := (153 * mp + 2) / 5 + d - 1
  let doe : Int := yoe * 365 + yoe / 4 - yoe / 100 + doy
  era * 146097 + doe - 719468

/-- Minutes since the Unix epoch of a naive date-time read as UTC. -/
def naiveMinutes (n : NaiveDT) : Int :=
  daysFromCivil n.year n.month n.day * 1440 + n.hour * 60 + n.minute

/-- The UTC zone: localization is the identity embedding into the absolute
timeline. -/
def utcTz : PyTz := ⟨naiveMinutes⟩

/-- A concrete one-zone database used to evaluate the model on the inputs
appearing in the spec's examples. -/
def tzdbUTC : TZDB := fun z => if z = "UTC" then some utcTz else none

/-- One scheduled event, as stored in `schedule.json` (`streams` entries). -/
structure Stream where
  datetime : String
  original_timezone : String
  description : String
deriving DecidableEq, Repr

/-- The persisted bot state (`schedule.json` plus the in-memory `bot_data`). -/
structure BotData where
  streams : List Stream
  user_timezones : List (String × String)
  announcement_channel_id : Option Int
  last_announced_date_utc : Option String
deriving DecidableEq, Repr

/-- Localize one stream entry: `strptime` on its `datetime`, `pytz.timezone`
on its `original_timezone`, then `localize`. `none` corresponds to the
`(ValueError, UnknownTimeZoneError)` handlers in `src/main.py`. -/
def localizeStream (tzdb : TZDB) (s : Stream) : Option Int := do
  let n ← parseDT s.datetime
  let tz ← tzdb s.original_timezone
  some (tz.localize n)

/-- The loop body of `clean_old_streams`: returns the kept entries (in
order) and the number of removed entries. A localizable entry is kept iff
its instant is strictly after `now`; a non-localizable entry is always
kept. -/
def cleanStep (tzdb : TZDB) (now : Int) : List Stream → List Stream × Nat
  | [] => ([], 0)
  | s :: rest =>
    let (ups, c) := cleanStep tzdb now rest
    match localizeStream tzdb s with
    | some t => if t > now then (s :: ups, c) else (ups, c + 1)
    | none => (s :: ups, c)

/-- Model of `clean_old_streams` (src/main.py lines 77–104): returns the
updated data, the removed count, and whether `save_data` was called. -/
def clean_old_streams (tzdb : TZDB) (now : Int) (d : BotData) :
    BotData × Nat × Bool :=
  let (ups, c) := cleanStep tzdb now d.streams
  if c > 0 then ({ d with streams := ups }, c, true) else (d, c, false)

/-- The keep test applied by `clean_old_streams`: a stream survives iff it
fails to localize or its instant is strictly after `now`. -/
def keepStream (tzdb : TZDB) (now : Int) (s : Stream) : Bool :=
  match localizeStream tzdb s with
  | some t => t > now
  | none => true

/-- The removal test of `clean_old_streams`: a stream is removed iff it
localizes to an instant `≤ now`. -/
def expiredStream (tzdb : TZDB) (now : Int) (s : Stream) : Bool :=
  match localizeStream tzdb s with
  | some t => t ≤ now
  | none => false

/-- The unsorted upcoming list built by the loops at src/main.py
lines 134–152 and 237–255: localizable entries with instant strictly after
`now`, as `(unix timestamp, description)` pairs, in insertion order. -/
def upcomingPre (tzdb : TZDB) (now : Int) (streams : List Stream) :
    List (Int × String) :=
  streams.filterMap fun s =>
    match localizeStream tzdb s with
    | some t => if t > now then some (t, s.description) else none
    | none => none

/-- The comparison of `upcoming_streams.sort(key=lambda x: x[0])`: compare
by the timestamp component only. -/
def upLe (a b : Int × String) : Bool :=
  a.1 ≤ b.1

/-- The displayed upcoming list: the unsorted list sorted ascending by
timestamp via Python's stable `list.sort(key=lambda x: x[0])`. -/
def upcomingOf (tzdb : TZDB) (now : Int) (streams : List Stream) :
    List (Int × String) :=
  (upcomingPre tzdb now streams).mergeSort upLe

/-- Model of the `!schedule` command body (src/main.py lines 232–273):
`clean_old_streams` runs against one clock sample (`nowClean`, line 234 via
line 80) and the display filter against a second sample (`nowList`,
line 235). Returns the updated data and the rendered upcoming list. -/
def scheduleCommand (tzdb : TZDB) (nowClean nowList : Int) (d : BotData) :
    BotData × List (Int × String) :=
  let d1 := (clean_old_streams tzdb nowClean d).1
  (d1, upcomingOf tzdb nowList d1.streams)

/-- Per-invocation outcome of the Daily Announcer state machine
(`Announced`, `Suppressed`, `Skipped` of the spec; `errored` marks an
exception escaping the task body uncaught). -/
inductive Outcome where
  | announced
  | suppressed
  | skipped
  | errored
deriving DecidableEq, Repr

/-- Python truthiness of `if not channel_id:` on the optional channel id
(both `None` and `0` are falsy). -/
def channelConfigured : Option Int → Bool
  | none => false
  | some c => c ≠ 0

/-- Result of one announcer invocation: the data afterwards, the number of
successfully delivered messages, whether the announcer body called
`save_data` (the prune's own save is reported by `clean_old_streams`),
and the state-machine outcome. -/
structure AnnRes where
  data : BotData
  sent : Nat
  saved : Bool
  outcome : Outcome
deriving DecidableEq, Repr

/-- Model of `daily_schedule_announcer` (src/main.py lines 109–180).
Clock samples are explicit inputs: `nowClean` (line 80, via the prune at
line 112), `today` (the date of the sample at line 120), `now` (line 132).
`channelExists` models `client.get_channel` returning a live channel;
`sendOk` models `channel.send` succeeding. The send in the empty-list
branch (line 155) is not wrapped in `try`, so its failure escapes uncaught
(`errored`); the send in the nonempty branch (line 174) is wrapped, and its
failure is logged and falls through (`skipped`). -/
def daily_schedule_announcer (tzdb : TZDB) (nowClean : Int) (today : String)
    (now : Int) (channelExists sendOk : Bool) (d : BotData) : AnnRes :=
  let d1 := (clean_old_streams tzdb nowClean d).1
  if ¬channelConfigured d1.announcement_channel_id then
    ⟨d1, 0, false, .skipped⟩
  else if d1.last_announced_date_utc = some today then
    ⟨d1, 0, false, .suppressed⟩
  else if ¬channelExists then
    ⟨d1, 0, false, .skipped⟩
  else
    let ups := upcomingOf tzdb now d1.streams
    if ups.isEmpty then
      if sendOk then
        ⟨{ d1 with last_announced_date_utc := some today }, 1, true, .announced⟩
      else
        ⟨d1, 0, false, .errored⟩
    else
      if sendOk then
        ⟨{ d1 with last_announced_date_utc := some today }, 1, true, .announced⟩
      else
        ⟨d1, 0, false, .skipped⟩

/-- The per-trigger environment of one announcer invocation: its two clock
samples and the behaviour of the channel lookup and the send. -/
structure Trigger where
  nowClean : Int
  now : Int
  channelExists : Bool
  sendOk : Bool
deriving DecidableEq, Repr

/-- Run a sequence of announcer triggers within one UTC calendar day
(`today` fixed); returns the final data and the total number of
successfully delivered messages. -/
def runTriggers (tzdb : TZDB) (today : String) :
    List Trigger → BotData → BotData × Nat
  | [], d => (d, 0)
  | t :: ts, d =>
    let r := daily_schedule_announcer tzdb t.nowClean today t.now
      t.channelExists t.sendOk d
    let (d', n) := runTriggers tzdb today ts r.data
    (d', r.sent + n)

/-- Model of the index-based removal at src/main.py lines 328–337
(`bot_data["streams"].pop(index)` guarded by `0 <= index < len`):
returns the updated data and whether the removal succeeded (`false`
corresponds to the "Invalid stream index." reply, `IndexOutOfRange`). -/
def removeStreamAt (i : Int) (d : BotData) : BotData × Bool :=
  if 0 ≤ i ∧ i < d.streams.length then
    ({ d with streams := d.streams.eraseIdx i.toNat }, true)
  else
    (d, false)

/-- Model of `set_user_timezone`'s dict assignment
`bot_data["user_timezones"][str(user_id)] = timezone_name`. -/
def setTzPref (l : List (String × String)) (k v : String) :
    List (String × String) :=
  match l with
  | [] => [(k, v)]
  | (k', v') :: rest =>
    if k' = k then (k, v) :: rest else (k', v') :: setTzPref rest k v

/-- Model of `set_user_timezone` (src/main.py lines 67–75): validates the
zone name via the database first; an unknown zone returns `False` before
any mutation. -/
def set_user_timezone (tzdb : TZDB) (uid tzName : String) (d : BotData) :
    BotData × Bool :=
  match tzdb tzName with
  | some _ =>
    ({ d with user_timezones := setTzPref d.user_timezones uid tzName }, true)
  | none => (d, false)

/-- Model of the `!addstream` command body (src/main.py lines 277–316):
joins the first two arguments into the datetime string, validates it with
`strptime` and the zone with `pytz.timezone`, and only then appends the new
entry and saves. Returns the updated data and whether the add succeeded. -/
def addStream (tzdb : TZDB) (dateArg timeArg tzName descr : String)
    (d : BotData) : BotData × Bool :=
  let dtStr := dateArg ++ " " ++ timeArg
  match parseDT dtStr with
  | none => (d, false)
  | some _ =>
    match tzdb tzName with
    | none => (d, false)
    | some _ =>
      ({ d with streams := d.streams ++ [⟨dtStr, tzName, descr⟩] }, true)

/-! ## Helper lemmas -/

lemma keepStream_eq_not_expired (tzdb : TZDB) (now : Int) (s : Stream) :
    keepStream tzdb now s = !expiredStream tzdb now s := by
  unfold keepStream expiredStream
  cases localizeStream tzdb s with
  | none => rfl
  | some t =>
    by_cases h : t > now
    · simp [h, Int.not_le.mpr h]
    · simp [h, Int.not_lt.mp h]

lemma cleanStep_eq (tzdb : TZDB) (now : Int) :
    ∀ l : List Stream,
      cleanStep tzdb now l =
        (l.filter (keepStream tzdb now), l.countP (expiredStream tzdb now))
  | [] => rfl
  | s :: rest => by
    have ih := cleanStep_eq tzdb now rest
    cases hl : localizeStream tzdb s with
    | none =>
      simp [cleanStep, ih, List.filter_cons, List.countP_cons,
        keepStream, expiredStream, hl]
    | some t =>
      by_cases ht : t > now
      · simp [cleanStep, ih, List.filter_cons, List.countP_cons,
          keepStream, expiredStream, hl, ht, Int.not_le.mpr ht]
      · simp [cleanStep, ih, List.filter_cons, List.countP_cons,
          keepStream, expiredStream, hl, ht, Int.not_lt.mp ht]

lemma clean_streams_eq (tzdb : TZDB) (now : Int) (d : BotData) :
    (clean_old_streams tzdb now d).1.streams =
      d.streams.filter (keepStream tzdb now) := by
  unfold clean_old_streams
  rw [cleanStep_eq]
  by_cases h : d.streams.countP (expiredStream tzdb now) > 0
  · simp [h]
  · simp only [h, if_false]
    have h0 : d.streams.countP (expiredStream tzdb now) = 0 := by omega
    rw [List.countP_eq_zero] at h0
    rw [List.filter_eq_self.mpr]
    intro a ha
    rw [keepStream_eq_not_expired]
    simpa using h0 a ha

lemma clean_count_eq (tzdb : TZDB) (now : Int) (d : BotData) :
    (clean_old_streams tzdb now d).2.1 =
      d.streams.countP (expiredStream tzdb now) := by
  unfold clean_old_streams
  rw [cleanStep_eq]
  by_cases h : d.streams.countP (expiredStream tzdb now) > 0 <;> simp [h]

lemma clean_saved_iff (tzdb : TZDB) (now : Int) (d : BotData) :
    (clean_old_streams tzdb now d).2.2 = true ↔
      0 < d.streams.countP (expiredStream tzdb now) := by
  unfold clean_old_streams
  rw [cleanStep_eq]
  by_cases h : d.streams.countP (expiredStream tzdb now) > 0 <;> simp [h]

lemma clean_user_timezones (tzdb : TZDB) (now : Int) (d : BotData) :
    (clean_old_streams tzdb now d).1.user_timezones = d.user_timezones := by
  unfold clean_old_streams
  by_cases h : (cleanStep tzdb now d.streams).2 > 0 <;> simp [h]

lemma clean_channel (tzdb : TZDB) (now : Int) (d : BotData) :
    (clean_old_streams tzdb now d).1.announcement_channel_id =
      d.announcement_channel_id := by
  unfold clean_old_streams
  by_cases h : (cleanStep tzdb now d.streams).2 > 0 <;> simp [h]

lemma clean_last (tzdb : TZDB) (now : Int) (d : BotData) :
    (clean_old_streams tzdb now d).1.last_announced_date_utc =
      d.last_announced_date_utc := by
  unfold clean_old_streams
  by_cases h : (cleanStep tzdb now d.streams).2 > 0 <;> simp [h]

/-! ## C2: pruning removes exactly the expired events -/

/-- C2. For every store and reference instant `now`, `clean_old_streams`
keeps exactly the events that fail to localize or localize strictly after
`now` (in order, unchanged), its removed count is the number of events
localizing to an instant `≤ now`, it saves iff that count is positive, and
it leaves the user-timezone, channel and last-announced fields unchanged. -/
theorem clean_old_streams_removes_exactly_expired (tzdb : TZDB) (now : Int)
    (d : BotData) :
    (clean_old_streams tzdb now d).1.streams =
      d.streams.filter (keepStream tzdb now) ∧
    (clean_old_streams tzdb now d).2.1 =
      d.streams.countP (expiredStream tzdb now) ∧
    ((clean_old_streams tzdb now d).2.2 = true ↔
      0 < d.streams.countP (expiredStream tzdb now)) ∧
    (clean_old_streams tzdb now d).1.user_timezones = d.user_timezones ∧
    (clean_old_streams tzdb now d).1.announcement_channel_id =
      d.announcement_channel_id ∧
    (clean_old_streams tzdb now d).1.last_announced_date_utc =
      d.last_announced_date_utc :=
  ⟨clean_streams_eq tzdb now d, clean_count_eq tzdb now d,
    clean_saved_iff tzdb now d, clean_user_timezones tzdb now d,
    clean_channel tzdb now d, clean_last tzdb now d⟩

/-! ## C9: pruning is idempotent -/

lemma countP_expired_filter_keep (tzdb : TZDB) (now : Int) (l : List Stream) :
    (l.filter (keepStream tzdb now)).countP (expiredStream tzdb now) = 0 := by
  rw [List.countP_eq_zero]
  intro a ha
  have hk := (List.mem_filter.mp ha).2
  rw [keepStream_eq_not_expired] at hk
  simpa using hk

lemma clean_of_countP_zero (tzdb : TZDB) (now : Int) (d : BotData)
    (h : d.streams.countP (expiredStream tzdb now) = 0) :
    clean_old_streams tzdb now d = (d, 0, false) := by
  simp only [clean_old_streams, cleanStep_eq, h]
  norm_num

/-- C9. `clean_old_streams` is idempotent: at a fixed reference instant, a
second run on the result of a first removes zero events, does not save, and
returns the store unchanged. -/
theorem clean_old_streams_idempotent (tzdb : TZDB) (now : Int) (d : BotData) :
    clean_old_streams tzdb now (clean_old_streams tzdb now d).1 =
      ((clean_old_streams tzdb now d).1, 0, false) := by
  apply clean_of_countP_zero
  rw [clean_streams_eq]
  exact countP_expired_filter_keep tzdb now d.streams

/-! ## C3: the upcoming listing is sorted ascending, stable on ties -/

lemma upLe_trans (a b c : Int × String) (h1 : upLe a b) (h2 : upLe b c) :
    upLe a c := by
  simp only [upLe, decide_eq_true_eq] at h1 h2 ⊢
  omega

lemma upLe_total (a b : Int × String) : upLe a b || upLe b a := by
  simp only [upLe, Bool.or_eq_true, decide_eq_true_eq]
  omega

lemma upcomingPre_mem (tzdb : TZDB) (now : Int) (streams : List Stream)
    (q : Int × String) :
    q ∈ upcomingPre tzdb now streams ↔
      ∃ s ∈ streams, localizeStream tzdb s = some q.1 ∧ now < q.1 ∧
        q.2 = s.description := by
  unfold upcomingPre
  rw [List.mem_filterMap]
  constructor
  · rintro ⟨s, hs, hf⟩
    refine ⟨s, hs, ?_⟩
    cases hl : localizeStream tzdb s with
    | none => simp only [hl] at hf; cases hf
    | some t =>
      simp only [hl] at hf
      by_cases ht : t > now
      · rw [if_pos ht] at hf
        cases hf
        exact ⟨rfl, ht, rfl⟩
      · rw [if_neg ht] at hf
        cases hf
  · rintro ⟨s, hs, hl, ht, hd⟩
    refine ⟨s, hs, ?_⟩
    simp only [hl]
    rw [if_pos ht]
    obtain ⟨t, de⟩ := q
    simp only at hd
    simp [hd]

/-- C3. The upcoming listing (used both by the `!schedule` command and by
the daily announcer's rendered list) contains exactly the localizable
events with absolute instant strictly after `now`; it is sorted ascending
by instant; and ties between equal instants keep the original insertion
order (elements with any fixed timestamp appear exactly as in the unsorted
pass over the store). -/
theorem upcoming_exact_sorted_stable (tzdb : TZDB) (now : Int)
    (streams : List Stream) :
    (∀ q : Int × String,
        q ∈ upcomingOf tzdb now streams ↔
          ∃ s ∈ streams, localizeStream tzdb s = some q.1 ∧ now < q.1 ∧
            q.2 = s.description) ∧
    (upcomingOf tzdb now streams).Perm (upcomingPre tzdb now streams) ∧
    (upcomingOf tzdb now streams).Pairwise (fun a b => a.1 ≤ b.1) ∧
    ∀ k : Int,
      (upcomingOf tzdb now streams).filter (fun q => q.1 = k) =
        (upcomingPre tzdb now streams).filter (fun q => q.1 = k) := by
  refine ⟨?_, ?_, ?_, ?_⟩
  · intro q
    rw [upcomingOf, List.mem_mergeSort, upcomingPre_mem]
  · exact List.mergeSort_perm _ _
  · have h := List.sorted_mergeSort upLe_trans upLe_total
      (upcomingPre tzdb now streams)
    refine h.imp ?_
    intro a b hab
    simpa [upLe] using hab
  · intro k
    have hperm := List.mergeSort_perm (upcomingPre tzdb now streams) upLe
    have hpw : ((upcomingPre tzdb now streams).filter
        (fun q => decide (q.1 = k))).Pairwise (fun a b => upLe a b = true) := by
      apply List.pairwise_of_forall_mem_list
      intro a ha b hb
      have ha' := (List.mem_filter.mp ha).2
      have hb' := (List.mem_filter.mp hb).2
      simp only [decide_eq_true_eq] at ha' hb'
      simp [upLe, ha', hb']
    have hsub : List.Sublist
        ((upcomingPre tzdb now streams).filter (fun q => decide (q.1 = k)))
        ((upcomingPre tzdb now streams).mergeSort upLe) :=
      List.sublist_mergeSort upLe_trans upLe_total hpw
        (List.filter_sublist _)
    have heq : ((upcomingPre tzdb now streams).filter
        (fun q => decide (q.1 = k))).filter (fun q => decide (q.1 = k)) =
        (upcomingPre tzdb now streams).filter (fun q => decide (q.1 = k)) :=
      List.filter_eq_self.mpr (fun a ha => (List.mem_filter.mp ha).2)
    have hsub2 : List.Sublist
        ((upcomingPre tzdb now streams).filter (fun q => decide (q.1 = k)))
        (((upcomingPre tzdb now streams).mergeSort upLe).filter
          (fun q => decide (q.1 = k))) := by
      have h2 := List.Sublist.filter (fun q : Int × String => decide (q.1 = k)) hsub
      rwa [heq] at h2
    have hlen : (((upcomingPre tzdb now streams).mergeSort upLe).filter
        (fun q => decide (q.1 = k))).length =
        ((upcomingPre tzdb now streams).filter
          (fun q => decide (q.1 = k))).length :=
      (hperm.filter _).length_eq
    exact (hsub2.eq_of_length hlen.symm).symm

/-! ## Announcer helper lemmas -/

lemma announcer_no_channel (tzdb : TZDB) (nowClean : Int) (today : String)
    (now : Int) (ce so : Bool) (d : BotData)
    (h : channelConfigured d.announcement_channel_id = false) :
    daily_schedule_announcer tzdb nowClean today now ce so d =
      ⟨(clean_old_streams tzdb nowClean d).1, 0, false, .skipped⟩ := by
  have hc : channelConfigured
      ((clean_old_streams tzdb nowClean d).1.announcement_channel_id) = false := by
    rw [clean_channel]; exact h
  simp only [daily_schedule_announcer]
  rw [if_pos (by simp [hc])]

lemma announcer_of_last_today (tzdb : TZDB) (nowClean : Int) (today : String)
    (now : Int) (ce so : Bool) (d : BotData)
    (h : d.last_announced_date_utc = some today) :
    (daily_schedule_announcer tzdb nowClean today now ce so d).sent = 0 ∧
    (daily_schedule_announcer tzdb nowClean today now ce so d).data.last_announced_date_utc
      = some today ∧
    (channelConfigured d.announcement_channel_id = true →
      (daily_schedule_announcer tzdb nowClean today now ce so d).outcome
        = .suppressed) := by
  have hl : (clean_old_streams tzdb nowClean d).1.last_announced_date_utc
      = some today := by rw [clean_last]; exact h
  by_cases hc : channelConfigured d.announcement_channel_id
  · have hc' : channelConfigured
        ((clean_old_streams tzdb nowClean d).1.announcement_channel_id) = true := by
      rw [clean_channel]; exact hc
    simp only [daily_schedule_announcer]
    rw [if_neg (by simp [hc']), if_pos hl]
    exact ⟨rfl, hl, fun _ => rfl⟩
  · rw [announcer_no_channel tzdb nowClean today now ce so d
      (Bool.not_eq_true _ ▸ eq_false_of_ne_true hc)]
    exact ⟨rfl, hl, fun hcc => absurd hcc hc⟩

lemma announcer_success (tzdb : TZDB) (nowClean : Int) (today : String)
    (now : Int) (d : BotData)
    (hcfg : channelConfigured d.announcement_channel_id = true)
    (hlast : d.last_announced_date_utc ≠ some today) :
    daily_schedule_announcer tzdb nowClean today now true true d =
      ⟨{ (clean_old_streams tzdb nowClean d).1 with
          last_announced_date_utc := some today }, 1, true, .announced⟩ := by
  have hc' : channelConfigured
      ((clean_old_streams tzdb nowClean d).1.announcement_channel_id) = true := by
    rw [clean_channel]; exact hcfg
  have hl : (clean_old_streams tzdb nowClean d).1.last_announced_date_utc
      ≠ some today := by rw [clean_last]; exact hlast
  simp only [daily_schedule_announcer]
  rw [if_neg (by simp [hc']), if_neg hl, if_neg (by simp)]
  by_cases he : (upcomingOf tzdb now
      (clean_old_streams tzdb nowClean d).1.streams).isEmpty
  · rw [if_pos he]; simp
  · rw [if_neg he]; simp

lemma announcer_send_fail (tzdb : TZDB) (nowClean : Int) (today : String)
    (now : Int) (d : BotData)
    (hcfg : channelConfigured d.announcement_channel_id = true)
    (hlast : d.last_announced_date_utc ≠ some today) :
    daily_schedule_announcer tzdb nowClean today now true false d =
      ⟨(clean_old_streams tzdb nowClean d).1, 0, false,
        if (upcomingOf tzdb now
            (clean_old_streams tzdb nowClean d).1.streams).isEmpty
        then .errored else .skipped⟩ := by
  have hc' : channelConfigured
      ((clean_old_streams tzdb nowClean d).1.announcement_channel_id) = true := by
    rw [clean_channel]; exact hcfg
  have hl : (clean_old_streams tzdb nowClean d).1.last_announced_date_utc
      ≠ some today := by rw [clean_last]; exact hlast
  simp only [daily_schedule_announcer]
  rw [if_neg (by simp [hc']), if_neg hl, if_neg (by simp)]
  by_cases he : (upcomingOf tzdb now
      (clean_old_streams tzdb nowClean d).1.streams).isEmpty
  · rw [if_pos he, if_neg (by simp), if_pos he]
  · rw [if_neg he, if_neg (by simp), if_neg he]

/-- Every announcer invocation either delivers no message and leaves
`last_announced_date_utc` unchanged, or delivers exactly one message and
sets it to `today`. -/
lemma announcer_sent_cases (tzdb : TZDB) (nowClean : Int) (today : String)
    (now : Int) (ce so : Bool) (d : BotData) :
    ((daily_schedule_announcer tzdb nowClean today now ce so d).sent = 0 ∧
      (daily_schedule_announcer tzdb nowClean today now ce so d).data.last_announced_date_utc
        = d.last_announced_date_utc) ∨
    ((daily_schedule_announcer tzdb nowClean today now ce so d).sent = 1 ∧
      (daily_schedule_announcer tzdb nowClean today now ce so d).data.last_announced_date_utc
        = some today) := by
  have hl := clean_last tzdb nowClean d
  simp only [daily_schedule_announcer]
  split
  · exact Or.inl ⟨rfl, hl⟩
  · split
    · exact Or.inl ⟨rfl, hl⟩
    · split
      · exact Or.inl ⟨rfl, hl⟩
      · split
        · split
          · exact Or.inr ⟨rfl, rfl⟩
          · exact Or.inl ⟨rfl, hl⟩
        · split
          · exact Or.inr ⟨rfl, rfl⟩
          · exact Or.inl ⟨rfl, hl⟩

lemma runTriggers_bound (tzdb : TZDB) (today : String) :
    ∀ (ts : List Trigger) (d : BotData),
      (d.last_announced_date_utc = some today →
        (runTriggers tzdb today ts d).2 = 0) ∧
      (runTriggers tzdb today ts d).2 ≤ 1
  | [], d => by simp [runTriggers]
  | t :: ts, d => by
    have ih := runTriggers_bound tzdb today ts
    have hsnd : (runTriggers tzdb today (t :: ts) d).2 =
        (daily_schedule_announcer tzdb t.nowClean today t.now
          t.channelExists t.sendOk d).sent +
        (runTriggers tzdb today ts
          (daily_schedule_announcer tzdb t.nowClean today t.now
            t.channelExists t.sendOk d).data).2 := rfl
    rcases announcer_sent_cases tzdb t.nowClean today t.now
        t.channelExists t.sendOk d with ⟨h0, hkeep⟩ | ⟨h1, hset⟩
    · constructor
      · intro hd
        rw [hsnd, h0]
        have hz := (ih (daily_schedule_announcer tzdb t.nowClean today t.now
          t.channelExists t.sendOk d).data).1 (by rw [hkeep, hd])
        omega
      · rw [hsnd, h0]
        have hb := (ih (daily_schedule_announcer tzdb t.nowClean today t.now
          t.channelExists t.sendOk d).data).2
        omega
    · constructor
      · intro hd
        have hz := (announcer_of_last_today tzdb t.nowClean today t.now
          t.channelExists t.sendOk d hd).1
        rw [hz] at h1
        cases h1
      · rw [hsnd, h1]
        have hz := (ih (daily_schedule_announcer tzdb t.nowClean today t.now
          t.channelExists t.sendOk d).data).1 hset
        omega

/-! ## C1: at most one successful announcement per UTC day -/

/-- C1. For a fixed UTC calendar day `today`: (1) over any sequence of
announcer triggers within that day, at most one message is successfully
delivered; (2) a trigger with a configured, reachable destination and a
successful send on a day not yet announced delivers exactly one message,
sets `last_announced_date_utc` to today, and ends `Announced`; (3) any
trigger with `last_announced_date_utc` already equal to today delivers zero
messages and (with a configured destination) ends `Suppressed`. -/
theorem daily_announcer_once_per_day (tzdb : TZDB) (today : String)
    (d : BotData) :
    (∀ ts : List Trigger, (runTriggers tzdb today ts d).2 ≤ 1) ∧
    (∀ nowClean now : Int,
      channelConfigured d.announcement_channel_id = true →
      d.last_announced_date_utc ≠ some today →
      (daily_schedule_announcer tzdb nowClean today now true true d).sent = 1 ∧
      (daily_schedule_announcer tzdb nowClean today now true true
        d).data.last_announced_date_utc = some today ∧
      (daily_schedule_announcer tzdb nowClean today now true true d).outcome
        = .announced) ∧
    (∀ (nowClean now : Int) (ce so : Bool),
      d.last_announced_date_utc = some today →
      (daily_schedule_announcer tzdb nowClean today now ce so d).sent = 0 ∧
      (channelConfigured d.announcement_channel_id = true →
        (daily_schedule_announcer tzdb nowClean today now ce so d).outcome
          = .suppressed)) := by
  refine ⟨fun ts => (runTriggers_bound tzdb today ts d).2, ?_, ?_⟩
  · intro nowClean now hcfg hlast
    rw [announcer_success tzdb nowClean today now d hcfg hlast]
    exact ⟨rfl, rfl, rfl⟩
  · intro nowClean now ce so hd
    obtain ⟨h0, _, hs⟩ := announcer_of_last_today tzdb nowClean today now
      ce so d hd
    exact ⟨h0, hs⟩

/-- C1 witness: two same-day triggers on a fresh store deliver at most one
message; a first trigger delivers exactly one; a trigger on an
already-announced day delivers zero. -/
theorem daily_announcer_once_per_day_witness :
    ((runTriggers tzdbUTC "2030-01-01"
      [⟨0, 0, true, true⟩, ⟨0, 0, true, true⟩] ⟨[], [], some 1, none⟩).2 ≤ 1) ∧
    ((daily_schedule_announcer tzdbUTC 0 "2030-01-01" 0 true true
      ⟨[], [], some 1, none⟩).sent = 1) ∧
    ((daily_schedule_announcer tzdbUTC 0 "2030-01-01" 0 true true
      ⟨[], [], some 1, some "2030-01-01"⟩).sent = 0) := by
  refine ⟨(daily_announcer_once_per_day tzdbUTC "2030-01-01"
    ⟨[], [], some 1, none⟩).1 _, ?_, ?_⟩
  · exact ((daily_announcer_once_per_day tzdbUTC "2030-01-01"
      ⟨[], [], some 1, none⟩).2.1 0 0 (by decide) (by decide)).1
  · exact ((daily_announcer_once_per_day tzdbUTC "2030-01-01"
      ⟨[], [], some 1, some "2030-01-01"⟩).2.2 0 0 true true (by decide)).1

/-! ## C7: no configured destination -/

def c7Data : BotData :=
  ⟨[⟨"1999-01-01 00:00", "UTC", "old"⟩], [], none, none⟩

/-- C7 counterexample: with no announcement destination configured, the
invocation does end `Skipped` and sends nothing, but it is not free of
side effects — the initial prune (which runs before the destination check)
removes an expired event, so the store is mutated. -/
theorem announcer_no_channel_mutates_counterexample :
    (daily_schedule_announcer tzdbUTC 31558200 "2030-01-01" 31558200 true true
      c7Data).outcome = .skipped ∧
    (daily_schedule_announcer tzdbUTC 31558200 "2030-01-01" 31558200 true true
      c7Data).sent = 0 ∧
    ((daily_schedule_announcer tzdbUTC 31558200 "2030-01-01" 31558200 true true
      c7Data).data = c7Data) = False := by
  refine ⟨by decide, by decide, eq_false (by decide)⟩

/-- C7 (amended). With no announcement destination configured the
invocation ends `Skipped`, sends no message, performs no announcer-side
save, and leaves the user-timezone, channel and last-announced state
unchanged; the only state change is the initial prune of expired events,
which runs before the destination check. -/
theorem announcer_no_channel_skips (tzdb : TZDB) (nowClean : Int)
    (today : String) (now : Int) (ce so : Bool) (d : BotData)
    (h : channelConfigured d.announcement_channel_id = false) :
    (daily_schedule_announcer tzdb nowClean today now ce so d).sent = 0 ∧
    (daily_schedule_announcer tzdb nowClean today now ce so d).saved = false ∧
    (daily_schedule_announcer tzdb nowClean today now ce so d).outcome
      = .skipped ∧
    (daily_schedule_announcer tzdb nowClean today now ce so
      d).data.last_announced_date_utc = d.last_announced_date_utc ∧
    (daily_schedule_announcer tzdb nowClean today now ce so
      d).data.announcement_channel_id = d.announcement_channel_id ∧
    (daily_schedule_announcer tzdb nowClean today now ce so
      d).data.user_timezones = d.user_timezones ∧
    (daily_schedule_announcer tzdb nowClean today now ce so d).data =
      (clean_old_streams tzdb nowClean d).1 := by
  rw [announcer_no_channel tzdb nowClean today now ce so d h]
  exact ⟨rfl, rfl, rfl, clean_last tzdb nowClean d, clean_channel tzdb nowClean d,
    clean_user_timezones tzdb nowClean d, rfl⟩

/-- C7 witness: concrete instance of the amended no-destination theorem. -/
theorem announcer_no_channel_skips_witness :
    (daily_schedule_announcer tzdbUTC 31558200 "2030-01-01" 31558200 true true
      c7Data).sent = 0 ∧
    (daily_schedule_announcer tzdbUTC 31558200 "2030-01-01" 31558200 true true
      c7Data).outcome = .skipped :=
  ⟨(announcer_no_channel_skips tzdbUTC 31558200 "2030-01-01" 31558200 true true
      c7Data (by decide)).1,
    (announcer_no_channel_skips tzdbUTC 31558200 "2030-01-01" 31558200 true true
      c7Data (by decide)).2.2.1⟩

/-! ## C5: send failure handling -/

def c5Data : BotData := ⟨[], [], some 1, none⟩

/-- C5 counterexample: a send failure on the "no upcoming streams" notice
(the `channel.send` at src/main.py line 155, outside any `try`) escapes the
task body as an uncaught exception instead of being logged and ending
`Skipped`. -/
theorem send_fail_empty_uncaught_counterexample :
    (daily_schedule_announcer tzdbUTC 0 "2030-01-01" 0 true false
      c5Data).outcome = .errored ∧
    ((daily_schedule_announcer tzdbUTC 0 "2030-01-01" 0 true false
      c5Data).outcome = Outcome.skipped) = False := by
  have hf := announcer_send_fail tzdbUTC 0 "2030-01-01" 0 c5Data
    (by decide) (by decide)
  have hstr : (clean_old_streams tzdbUTC 0 c5Data).1.streams = [] := by decide
  have he : (upcomingOf tzdbUTC 0
      (clean_old_streams tzdbUTC 0 c5Data).1.streams).isEmpty = true := by
    rw [hstr]
    simp [upcomingOf, upcomingPre]
  rw [hf]
  simp [he]

/-- C5 (amended). On any send failure the announcer delivers nothing, does
not save, and leaves `last_announced_date_utc` unchanged, so a later
trigger the same day still announces; the failure ends `Skipped` (logged)
when the rendered upcoming list is nonempty, but escapes uncaught
(`errored`) when the list is empty; on a successful send it sets
`last_announced_date_utc = today`, saves, and ends `Announced`. -/
theorem send_fail_no_update_success_persists (tzdb : TZDB) (nowClean : Int)
    (today : String) (now : Int) (d : BotData)
    (hcfg : channelConfigured d.announcement_channel_id = true)
    (hlast : d.last_announced_date_utc ≠ some today) :
    ((daily_schedule_announcer tzdb nowClean today now true false d).sent = 0 ∧
     (daily_schedule_announcer tzdb nowClean today now true false d).saved
       = false ∧
     (daily_schedule_announcer tzdb nowClean today now true false
       d).data.last_announced_date_utc = d.last_announced_date_utc) ∧
    ((upcomingOf tzdb now
        (clean_old_streams tzdb nowClean d).1.streams).isEmpty = false →
      (daily_schedule_announcer tzdb nowClean today now true false d).outcome
        = .skipped) ∧
    ((upcomingOf tzdb now
        (clean_old_streams tzdb nowClean d).1.streams).isEmpty = true →
      (daily_schedule_announcer tzdb nowClean today now true false d).outcome
        = .errored) ∧
    (∀ nc2 n2 : Int,
      (daily_schedule_announcer tzdb nc2 today n2 true true
        (daily_schedule_announcer tzdb nowClean today now true false
          d).data).outcome = .announced) ∧
    ((daily_schedule_announcer tzdb nowClean today now true true
        d).data.last_announced_date_utc = some today ∧
     (daily_schedule_announcer tzdb nowClean today now true true d).saved
       = true ∧
     (daily_schedule_announcer tzdb nowClean today now true true d).sent = 1 ∧
     (daily_schedule_announcer tzdb nowClean today now true true d).outcome
       = .announced) := by
  have hf := announcer_send_fail tzdb nowClean today now d hcfg hlast
  have hs := announcer_success tzdb nowClean today now d hcfg hlast
  refine ⟨?_, ?_, ?_, ?_, ?_⟩
  · rw [hf]
    exact ⟨rfl, rfl, clean_last tzdb nowClean d⟩
  · intro he
    rw [hf]
    simp [he]
  · intro he
    rw [hf]
    simp [he]
  · intro nc2 n2
    rw [hf]
    have hcfg2 : channelConfigured
        ((clean_old_streams tzdb nowClean d).1.announcement_channel_id)
        = true := by rw [clean_channel]; exact hcfg
    have hlast2 : (clean_old_streams tzdb nowClean d).1.last_announced_date_utc
        ≠ some today := by rw [clean_last]; exact hlast
    rw [announcer_success tzdb nc2 today n2 _ hcfg2 hlast2]
  · rw [hs]
    exact ⟨rfl, rfl, rfl, rfl⟩

/-- C5 witness: concrete instance — a failed send leaves the
last-announced date unset and a later same-day trigger announces. -/
theorem send_fail_no_update_witness :
    (daily_schedule_announcer tzdbUTC 0 "2030-01-01" 0 true false
      c5Data).data.last_announced_date_utc = none ∧
    (daily_schedule_announcer tzdbUTC 1 "2030-01-01" 1 true true
      (daily_schedule_announcer tzdbUTC 0 "2030-01-01" 0 true false
        c5Data).data).outcome = .announced := by
  have h := send_fail_no_update_success_persists tzdbUTC 0 "2030-01-01" 0
    c5Data (by decide) (by decide)
  exact ⟨h.1.2.2.trans (by decide), h.2.2.2.1 1 1⟩

/-! ## C4: multiple clock samples per operation -/

def c4Stream : Stream := ⟨"2030-01-01 10:00", "UTC", "Launch"⟩

def c4Data : BotData := ⟨[c4Stream], [], some 1, none⟩

/-- The absolute instant of `c4Stream` (minutes since the epoch). -/
def c4T : Int := naiveMinutes ⟨2030, 1, 1, 10, 0⟩

lemma c4_loc :
    localizeStream tzdbUTC ⟨"2030-01-01 10:00", "UTC", "Launch"⟩ = some c4T := by
  decide

lemma schedule_single_sample_eval (n : Int) :
    scheduleCommand tzdbUTC n n c4Data =
      if c4T > n then (c4Data, [(c4T, "Launch")])
      else ({ c4Data with streams := [] }, []) := by
  by_cases h : c4T > n
  · simp [scheduleCommand, clean_old_streams, cleanStep, upcomingOf,
      upcomingPre, c4_loc, h, c4Data, c4Stream]
  · simp [scheduleCommand, clean_old_streams, cleanStep, upcomingOf,
      upcomingPre, c4_loc, h, c4Data, c4Stream]

/-- C4. The `!schedule` operation reads the clock twice (once inside
`clean_old_streams`, once for the display filter), and this is observable:
with an event at instant `c4T`, a run whose prune sample is before `c4T`
and whose filter sample is after it keeps the event in the store yet omits
it from the listing — an outcome no single-sample run (`n`, `n`) produces
for any `n`. -/
theorem schedule_clock_multi_sample_divergence :
    ∀ n : Int,
      (scheduleCommand tzdbUTC n n c4Data =
        scheduleCommand tzdbUTC (c4T - 60) (c4T + 60) c4Data) = False := by
  have h2 : scheduleCommand tzdbUTC (c4T - 60) (c4T + 60) c4Data =
      (c4Data, []) := by
    have hgt : c4T > c4T - 60 := by omega
    have hngt : ¬c4T > c4T + 60 := by omega
    simp [scheduleCommand, clean_old_streams, cleanStep, upcomingOf,
      upcomingPre, c4_loc, c4Data, c4Stream, hgt, hngt]
  intro n
  apply eq_false
  rw [h2, schedule_single_sample_eval n]
  by_cases h : c4T > n
  · rw [if_pos h]
    decide
  · rw [if_neg h]
    decide

/-! ## C6: removal by index -/

/-- C6. Removal with an index outside `[0, len)` fails and leaves the data
unchanged; removal with an index inside `[0, len)` succeeds, removes
exactly the event at that index, and shifts every later event's index down
by one. -/
theorem removeStreamAt_spec (i : Int) (d : BotData) :
    (¬(0 ≤ i ∧ i < (d.streams.length : Int)) →
      removeStreamAt i d = (d, false)) ∧
    ((0 ≤ i ∧ i < (d.streams.length : Int)) →
      (removeStreamAt i d).2 = true ∧
      (removeStreamAt i d).1.streams =
        d.streams.take i.toNat ++ d.streams.drop (i.toNat + 1) ∧
      (removeStreamAt i d).1.streams.length = d.streams.length - 1 ∧
      (∀ j : Nat, j < i.toNat →
        (removeStreamAt i d).1.streams[j]? = d.streams[j]?) ∧
      (∀ j : Nat, i.toNat ≤ j →
        (removeStreamAt i d).1.streams[j]? = d.streams[j + 1]?)) := by
  constructor
  · intro h
    unfold removeStreamAt
    rw [if_neg h]
  · intro h
    have hin : i.toNat < d.streams.length := by omega
    have hstr : (removeStreamAt i d).1.streams = d.streams.eraseIdx i.toNat := by
      unfold removeStreamAt
      rw [if_pos h]
    have htd : d.streams.eraseIdx i.toNat =
        d.streams.take i.toNat ++ d.streams.drop (i.toNat + 1) :=
      List.eraseIdx_eq_take_drop_succ d.streams i.toNat
    refine ⟨?_, ?_, ?_, ?_, ?_⟩
    · unfold removeStreamAt
      rw [if_pos h]
    · rw [hstr, htd]
    · rw [hstr]
      exact List.length_eraseIdx_of_lt hin
    · intro j hj
      rw [hstr, htd, List.getElem?_append_left, List.getElem?_take_of_lt hj]
      rw [List.length_take]
      omega
    · intro j hj
      rw [hstr, htd, List.getElem?_append_right, List.getElem?_drop]
      · congr 1
        rw [List.length_take]
        omega
      · rw [List.length_take]
        omega

/-- C6 witness: removing index 5 from a two-event store fails and changes
nothing; removing index 0 succeeds and the former index-1 event moves to
index 0. -/
theorem removeStreamAt_spec_witness :
    removeStreamAt 5 ⟨[⟨"a", "UTC", "x"⟩, ⟨"b", "UTC", "y"⟩], [], none, none⟩
      = (⟨[⟨"a", "UTC", "x"⟩, ⟨"b", "UTC", "y"⟩], [], none, none⟩, false) ∧
    (removeStreamAt 0
      ⟨[⟨"a", "UTC", "x"⟩, ⟨"b", "UTC", "y"⟩], [], none, none⟩).1.streams[0]?
      = (⟨[⟨"a", "UTC", "x"⟩, ⟨"b", "UTC", "y"⟩], [], none, none⟩ :
          BotData).streams[1]? :=
  ⟨(removeStreamAt_spec 5
      ⟨[⟨"a", "UTC", "x"⟩, ⟨"b", "UTC", "y"⟩], [], none, none⟩).1 (by decide),
    ((removeStreamAt_spec 0
      ⟨[⟨"a", "UTC", "x"⟩, ⟨"b", "UTC", "y"⟩], [], none, none⟩).2
        (by decide)).2.2.2.2 0 (by decide)⟩

/-! ## C8: invalid timezone leaves preferences unchanged -/

/-- C8. Setting a timezone whose name does not resolve in the zone
database returns failure and leaves the store (in particular the stored
preference mapping) entirely unchanged. -/
theorem set_user_timezone_invalid_unchanged (tzdb : TZDB)
    (uid tzName : String) (d : BotData) (h : tzdb tzName = none) :
    set_user_timezone tzdb uid tzName d = (d, false) := by
  unfold set_user_timezone
  rw [h]

/-- C8 witness: `"Mars/Phobos"` is not a known zone; setting it fails and
alters nothing. -/
theorem set_user_timezone_invalid_unchanged_witness :
    set_user_timezone tzdbUTC "42" "Mars/Phobos"
      ⟨[], [("42", "UTC")], none, none⟩
      = (⟨[], [("42", "UTC")], none, none⟩, false) :=
  set_user_timezone_invalid_unchanged tzdbUTC "42" "Mars/Phobos"
    ⟨[], [("42", "UTC")], none, none⟩
    (by unfold tzdbUTC; rw [if_neg (by decide)])

/-! ## C10: events added through `!addstream` always localize -/

/-- C10. If the `!addstream` path succeeds, the event it appended (and it
appends exactly that one event) localizes successfully under the same
parser and zone database used by prune and the upcoming listing, and its
classification there is purely the time comparison against `now` — the
malformed-entry branches are unreachable for it. -/
theorem addStream_validated (tzdb : TZDB)
    (dateArg timeArg tzName descr : String) (d : BotData)
    (h : (addStream tzdb dateArg timeArg tzName descr d).2 = true) :
    (addStream tzdb dateArg timeArg tzName descr d).1.streams =
      d.streams ++ [⟨dateArg ++ " " ++ timeArg, tzName, descr⟩] ∧
    (localizeStream tzdb ⟨dateArg ++ " " ++ timeArg, tzName, descr⟩).isSome
      = true ∧
    (∀ now : Int,
      keepStream tzdb now ⟨dateArg ++ " " ++ timeArg, tzName, descr⟩ =
        !expiredStream tzdb now ⟨dateArg ++ " " ++ timeArg, tzName, descr⟩ ∧
      expiredStream tzdb now ⟨dateArg ++ " " ++ timeArg, tzName, descr⟩ =
        decide ((localizeStream tzdb
          ⟨dateArg ++ " " ++ timeArg, tzName, descr⟩).getD 0 ≤ now)) := by
  cases hp : parseDT (dateArg ++ " " ++ timeArg) with
  | none =>
    exfalso
    unfold addStream at h
    simp only [hp] at h
    cases h
  | some nd =>
    cases hz : tzdb tzName with
    | none =>
      exfalso
      unfold addStream at h
      simp only [hp, hz] at h
      cases h
    | some tz =>
      have hloc : localizeStream tzdb ⟨dateArg ++ " " ++ timeArg, tzName, descr⟩
          = some (tz.localize nd) := by
        unfold localizeStream
        simp [hp, hz]
      refine ⟨?_, ?_, ?_⟩
      · unfold addStream
        simp only [hp, hz]
      · rw [hloc]
        rfl
      · intro now
        constructor
        · exact keepStream_eq_not_expired tzdb now _
        · unfold expiredStream
          rw [hloc]
          simp

/-- C10 witness: a successful `!addstream` append whose event localizes. -/
theorem addStream_validated_witness :
    (addStream tzdbUTC "2030-01-01" "10:00" "UTC" "Launch"
      ⟨[], [], none, none⟩).1.streams =
      [⟨"2030-01-01 10:00", "UTC", "Launch"⟩] ∧
    (localizeStream tzdbUTC
      ⟨"2030-01-01" ++ " " ++ "10:00", "UTC", "Launch"⟩).isSome = true := by
  have h := addStream_validated tzdbUTC "2030-01-01" "10:00" "UTC" "Launch"
    ⟨[], [], none, none⟩ (by decide)
  exact ⟨h.1.trans (by decide), h.2.1⟩

end Nova
